import Mathlib

/-!
Shallow embedding of the 3-qubit bit-flip error-correction repository.

The classical majority-vote logic (`majority_vote`, `detect_error`,
`majority_vote_correction`) is translated from
`majority_vote_detection.py`, `full_error_correction_pipeline.py` and
`automatic_error_correction.py`.  Python strings become `List Char`;
`str.count` becomes `List.count`; `str.index` (which raises `ValueError`
when the character is absent) becomes `List.findIdx?` wrapped in
`Except`.  A raised Python `ValueError` is modelled as
`Err.valueError msg`.

The circuits built by the repository act only on computational basis
states (the gates used are X and CNOT, and the initial states handled by
the builders are the classical '0' and '1'), so a circuit is a list of
gates and its semantics is a deterministic action on a 3-bit classical
state.  Measurement keys follow the simulator's bit order: classical bit
2 first, classical bit 0 last.
-/

/-- Python `ValueError` raised by the repository's functions. -/
inductive Err where
  | valueError (msg : String)
deriving Repr, DecidableEq

/-- Translation of `majority_vote` from `majority_vote_detection.py`
(lines 83-119).  Validates only the length; computes the majority by
comparing counts; when the bits disagree, looks up the first index of
the minority character, which raises `ValueError` when that character
is absent (Python `str.index`). -/
def majority_vote (bit_string : List Char) : Except Err (Char × Bool × Option Nat) :=
  if bit_string.length ≠ 3 then
    .error (.valueError "Bit string must be exactly 3 bits")
  else
    let count_0 := bit_string.count '0'
    let count_1 := bit_string.count '1'
    let majority_bit := if count_0 > count_1 then '0' else '1'
    if count_0 = 3 ∨ count_1 = 3 then
      .ok (majority_bit, false, none)
    else
      let minority_bit := if majority_bit = '0' then '1' else '0'
      match bit_string.findIdx? (fun c => c == minority_bit) with
      | some i => .ok (majority_bit, true, some i)
      | none => .error (.valueError "substring not found")

/-- Translation of `BitFlipErrorCorrection.detect_error` from
`full_error_correction_pipeline.py` (lines 112-143).  Same logic as
`majority_vote` but without the length check and with the tuple order
(error_detected, error_position, majority_bit). -/
def detect_error (measurement : List Char) : Except Err (Bool × Option Nat × Char) :=
  let count_0 := measurement.count '0'
  let count_1 := measurement.count '1'
  let majority_bit := if count_0 > count_1 then '0' else '1'
  if count_0 = 3 ∨ count_1 = 3 then
    .ok (false, none, majority_bit)
  else
    let minority_bit := if majority_bit = '0' then '1' else '0'
    match measurement.findIdx? (fun c => c == minority_bit) with
    | some i => .ok (true, some i, majority_bit)
    | none => .error (.valueError "substring not found")

/-- Translation of `majority_vote_correction` from
`automatic_error_correction.py` (lines 168-202): returns the corrected
string, the error position and whether a correction was applied. -/
def majority_vote_correction (bit_string : List Char) :
    Except Err (List Char × Option Nat × Bool) :=
  if bit_string.length ≠ 3 then
    .error (.valueError "Expected 3-bit string")
  else
    let count_0 := bit_string.count '0'
    let count_1 := bit_string.count '1'
    let majority_bit := if count_0 > count_1 then '0' else '1'
    let minority_bit := if majority_bit = '0' then '1' else '0'
    if count_0 = 3 ∨ count_1 = 3 then
      .ok (bit_string, none, false)
    else
      match bit_string.findIdx? (fun c => c == minority_bit) with
      | some error_pos =>
          .ok (bit_string.set error_pos majority_bit, some error_pos, true)
      | none => .error (.valueError "substring not found")

/-- A string made only of '0' and '1' characters. -/
def isBinaryString (s : List Char) : Bool :=
  s.all (fun c => c == '0' || c == '1')

/-- Every list of length 3 is an explicit triple. -/
theorem list_len3 {α : Type} (s : List α) (h : s.length = 3) :
    ∃ a b c, s = [a, b, c] := by
  match s, h with
  | [a, b, c], _ => exact ⟨a, b, c, rfl⟩

/-- Characters of a binary string are '0' or '1'. -/
theorem binChar (c : Char) (h : (c == '0' || c == '1') = true) :
    c = '0' ∨ c = '1' := by
  simpa using h

/-- Sum of '0'-counts and '1'-counts never exceeds the length. -/
theorem count01_le_length (s : List Char) :
    s.count '0' + s.count '1' ≤ s.length := by
  induction s with
  | nil => simp
  | cons a t ih =>
    rcases eq_or_ne a '0' with rfl | h0
    · simp [List.count_cons]
      omega
    · rcases eq_or_ne a '1' with rfl | h1
      · simp [List.count_cons]
        omega
      · simp [List.count_cons, h0, h1]
        omega

/-- A string with a non-binary character has strictly fewer '0'/'1'
characters than its length. -/
theorem count01_lt_length (s : List Char) (hnb : isBinaryString s = false) :
    s.count '0' + s.count '1' < s.length := by
  induction s with
  | nil => simp [isBinaryString] at hnb
  | cons a t ih =>
    by_cases ha : (a == '0' || a == '1') = true
    · have ht : isBinaryString t = false := by
        simp only [isBinaryString, List.all_cons, ha, Bool.true_and] at hnb
        exact hnb
      have hlt := ih ht
      rcases binChar a ha with rfl | rfl
      · simp [List.count_cons]
        omega
      · simp [List.count_cons]
        omega
    · have h0 : a ≠ '0' := by rintro rfl; exact ha (by decide)
      have h1 : a ≠ '1' := by rintro rfl; exact ha (by decide)
      have hle := count01_le_length t
      simp [List.count_cons, h0, h1]
      omega

/-- C1: for every 3-character string of '0'/'1' characters,
`majority_vote` (and `detect_error`) returns majority bit '0' when the
count of '0' characters is at least 2, and '1' otherwise. -/
theorem majority_vote_majority_bit (s : List Char) (h3 : s.length = 3)
    (hb : isBinaryString s = true) :
    (majority_vote s).map (fun r => r.1) =
      .ok (if 2 ≤ s.count '0' then '0' else '1') ∧
    (detect_error s).map (fun r => r.2.2) =
      .ok (if 2 ≤ s.count '0' then '0' else '1') := by
  obtain ⟨a, b, c, rfl⟩ := list_len3 s h3
  simp only [isBinaryString, List.all_cons, List.all_nil, Bool.and_true,
    Bool.and_eq_true] at hb
  obtain ⟨ha, hbb, hc⟩ := hb
  rcases binChar a ha with rfl | rfl <;> rcases binChar b hbb with rfl | rfl <;>
    rcases binChar c hc with rfl | rfl <;> exact ⟨rfl, rfl⟩

/-- Witness for C1 at the concrete input "010". -/
theorem majority_vote_majority_bit_w :
    (majority_vote ['0', '1', '0']).map (fun r => r.1) =
      .ok (if 2 ≤ List.count '0' ['0', '1', '0'] then '0' else '1') ∧
    (detect_error ['0', '1', '0']).map (fun r => r.2.2) =
      .ok (if 2 ≤ List.count '0' ['0', '1', '0'] then '0' else '1') :=
  majority_vote_majority_bit ['0', '1', '0'] (by rfl) (by rfl)

/-- C2: for every 3-character binary string with exactly zero or three
'1' characters, `majority_vote` reports no error (error flag false,
position `none`); concretely, "000" yields majority '0', no error,
position `none`. -/
theorem majority_vote_no_error (s : List Char) (h3 : s.length = 3)
    (hb : isBinaryString s = true)
    (hc : s.count '1' = 0 ∨ s.count '1' = 3) :
    (∃ m, (m = '0' ∨ m = '1') ∧ majority_vote s = .ok (m, false, none)) ∧
    majority_vote ['0', '0', '0'] = .ok ('0', false, none) := by
  obtain ⟨a, b, c, rfl⟩ := list_len3 s h3
  simp only [isBinaryString, List.all_cons, List.all_nil, Bool.and_true,
    Bool.and_eq_true] at hb
  obtain ⟨ha, hbb, hcc⟩ := hb
  rcases binChar a ha with rfl | rfl <;> rcases binChar b hbb with rfl | rfl <;>
    rcases binChar c hcc with rfl | rfl <;>
      first
        | exact absurd hc (by decide)
        | exact ⟨⟨'0', Or.inl rfl, rfl⟩, rfl⟩
        | exact ⟨⟨'1', Or.inr rfl, rfl⟩, rfl⟩

/-- Witness for C2 at the concrete input "000". -/
theorem majority_vote_no_error_w :
    (∃ m, (m = '0' ∨ m = '1') ∧
      majority_vote ['0', '0', '0'] = .ok (m, false, none)) ∧
    majority_vote ['0', '0', '0'] = .ok ('0', false, none) :=
  majority_vote_no_error ['0', '0', '0'] (by rfl) (by rfl) (Or.inl (by rfl))

/-- C3: for every 3-character binary string with exactly one or two '1'
characters, `majority_vote` reports an error at the unique index whose
character differs from the majority bit; concretely "010" gives
majority '0' with position 1 and "101" gives majority '1' with
position 1. -/
theorem majority_vote_single_error (s : List Char) (h3 : s.length = 3)
    (hb : isBinaryString s = true)
    (hc : s.count '1' = 1 ∨ s.count '1' = 2) :
    (∃ m p, majority_vote s = .ok (m, true, some p) ∧ p < 3 ∧
      s[p]? ≠ some m ∧ ∀ q, q < 3 → q ≠ p → s[q]? = some m) ∧
    majority_vote ['0', '1', '0'] = .ok ('0', true, some 1) ∧
    majority_vote ['1', '0', '1'] = .ok ('1', true, some 1) := by
  obtain ⟨a, b, c, rfl⟩ := list_len3 s h3
  simp only [isBinaryString, List.all_cons, List.all_nil, Bool.and_true,
    Bool.and_eq_true] at hb
  obtain ⟨ha, hbb, hcc⟩ := hb
  rcases binChar a ha with rfl | rfl <;> rcases binChar b hbb with rfl | rfl <;>
    rcases binChar c hcc with rfl | rfl <;>
      first
        | exact absurd hc (by decide)
        | exact ⟨⟨'0', 0, rfl, by decide, by decide, by decide⟩, rfl, rfl⟩
        | exact ⟨⟨'0', 1, rfl, by decide, by decide, by decide⟩, rfl, rfl⟩
        | exact ⟨⟨'0', 2, rfl, by decide, by decide, by decide⟩, rfl, rfl⟩
        | exact ⟨⟨'1', 0, rfl, by decide, by decide, by decide⟩, rfl, rfl⟩
        | exact ⟨⟨'1', 1, rfl, by decide, by decide, by decide⟩, rfl, rfl⟩
        | exact ⟨⟨'1', 2, rfl, by decide, by decide, by decide⟩, rfl, rfl⟩

/-- Witness for C3 at the concrete input "010". -/
theorem majority_vote_single_error_w :
    (∃ m p, majority_vote ['0', '1', '0'] = .ok (m, true, some p) ∧ p < 3 ∧
      (['0', '1', '0'] : List Char)[p]? ≠ some m ∧
      ∀ q, q < 3 → q ≠ p → (['0', '1', '0'] : List Char)[q]? = some m) ∧
    majority_vote ['0', '1', '0'] = .ok ('0', true, some 1) ∧
    majority_vote ['1', '0', '1'] = .ok ('1', true, some 1) :=
  majority_vote_single_error ['0', '1', '0'] (by rfl) (by rfl) (Or.inl (by rfl))

/-- C6: `majority_vote` on a string whose length is not 3 fails with
the `ValueError` used for invalid input; concretely for a 2-character
and a 4-character string. -/
theorem majority_vote_wrong_length (s : List Char) (h : s.length ≠ 3) :
    majority_vote s = .error (.valueError "Bit string must be exactly 3 bits") ∧
    majority_vote ['0', '1'] =
      .error (.valueError "Bit string must be exactly 3 bits") ∧
    majority_vote ['0', '1', '0', '1'] =
      .error (.valueError "Bit string must be exactly 3 bits") :=
  ⟨by simp only [majority_vote, if_pos h], rfl, rfl⟩

/-- Witness for C6 at the concrete 2-character input "01". -/
theorem majority_vote_wrong_length_w :
    majority_vote ['0', '1'] =
      .error (.valueError "Bit string must be exactly 3 bits") :=
  (majority_vote_wrong_length ['0', '1'] (by decide)).1

/-- C7 counterexample: the 3-character string "01a" contains a
character other than '0'/'1', yet `majority_vote` returns a result
instead of failing: majority '1', error detected, position 0. -/
theorem majority_vote_nonbinary_cex :
    (['0', '1', 'a'] : List Char).length = 3 ∧
    isBinaryString ['0', '1', 'a'] = false ∧
    majority_vote ['0', '1', 'a'] = .ok ('1', true, some 0) :=
  ⟨rfl, rfl, rfl⟩

/-- C7 amended: a 3-character string containing a character other than
'0'/'1' makes `majority_vote` fail with a `ValueError` (the Python
`str.index` failure) except when the string has exactly one '0' and
exactly one '1'; in that case it returns majority '1', error detected,
and the index of the '0'. -/
theorem majority_vote_nonbinary_amended (s : List Char) (h3 : s.length = 3)
    (hnb : isBinaryString s = false) :
    (s.count '0' = 1 ∧ s.count '1' = 1 →
      majority_vote s = .ok ('1', true, s.findIdx? (fun c => c == '0'))) ∧
    (¬(s.count '0' = 1 ∧ s.count '1' = 1) →
      majority_vote s = .error (.valueError "substring not found")) := by
  constructor
  · rintro ⟨hz, ho⟩
    have hmem : '0' ∈ s := List.count_pos_iff.mp (by omega)
    have hfind : s.findIdx? (fun c => c == '0') ≠ none := by
      intro hnone
      rw [List.findIdx?_eq_none_iff] at hnone
      have hfalse := hnone '0' hmem
      simp at hfalse
    obtain ⟨i, hi⟩ := Option.ne_none_iff_exists'.mp hfind
    have hmaj : (if s.count '0' > s.count '1' then '0' else '1') = '1' :=
      if_neg (by omega)
    have hminor : (if ('1' : Char) = '0' then '1' else '0') = '0' := by decide
    have hnot3 : ¬(s.count '0' = 3 ∨ s.count '1' = 3) := by omega
    simp only [majority_vote]
    rw [if_neg (not_not_intro h3), hmaj, if_neg hnot3, hminor, hi]
  · intro hno
    have hlt : s.count '0' + s.count '1' < 3 := h3 ▸ count01_lt_length s hnb
    have hnot3 : ¬(s.count '0' = 3 ∨ s.count '1' = 3) := by omega
    by_cases hgt : s.count '0' > s.count '1'
    · have ho : s.count '1' = 0 := by omega
      have hfind : s.findIdx? (fun c => c == '1') = none := by
        rw [List.findIdx?_eq_none_iff]
        intro x hx
        simp only [beq_eq_false_iff_ne, ne_eq]
        rintro rfl
        have := List.count_pos_iff.mpr hx
        omega
      have hmaj : (if s.count '0' > s.count '1' then '0' else '1') = '0' :=
        if_pos hgt
      have hminor : (if ('0' : Char) = '0' then '1' else '0') = '1' := by decide
      simp only [majority_vote]
      rw [if_neg (not_not_intro h3), hmaj, if_neg hnot3, hminor, hfind]
    · have hz : s.count '0' = 0 := by omega
      have hfind : s.findIdx? (fun c => c == '0') = none := by
        rw [List.findIdx?_eq_none_iff]
        intro x hx
        simp only [beq_eq_false_iff_ne, ne_eq]
        rintro rfl
        have := List.count_pos_iff.mpr hx
        omega
      have hmaj : (if s.count '0' > s.count '1' then '0' else '1') = '1' :=
        if_neg hgt
      have hminor : (if ('1' : Char) = '0' then '1' else '0') = '0' := by decide
      simp only [majority_vote]
      rw [if_neg (not_not_intro h3), hmaj, if_neg hnot3, hminor, hfind]

/-- Witness for the amended C7 at the concrete input "01a". -/
theorem majority_vote_nonbinary_amended_w :
    majority_vote ['0', '1', 'a'] =
      .ok ('1', true, (['0', '1', 'a'] : List Char).findIdx? (fun c => c == '0')) :=
  (majority_vote_nonbinary_amended ['0', '1', 'a'] (by rfl) (by rfl)).1
    (by exact ⟨rfl, rfl⟩)

/-- Majority bit as described by claim C10: '0' when at least two of
the three characters are '0', else '1'. -/
def claimMaj (s : List Char) : Char := if 2 ≤ s.count '0' then '0' else '1'

/-- Expected result of `majority_vote_correction` as described by
claim C10: the majority bit repeated three times, correction applied
exactly when the three characters are not all equal, and in that case
the position of the minority character (else `none`). -/
def claimC10 (s : List Char) : List Char × Option Nat × Bool :=
  let m := claimMaj s
  let applied := !(s.all (fun c => c == s.headD '0'))
  (List.replicate 3 m,
   if applied then s.findIdx? (fun c => !(c == m)) else none,
   applied)

/-- C10: on every 3-character binary string, `majority_vote_correction`
returns the majority bit repeated three times, the correction flag set
exactly when the characters are not all equal, and the position of the
minority character in that case; the minority index is unique. -/
theorem majority_vote_correction_claim (s : List Char) (h3 : s.length = 3)
    (hb : isBinaryString s = true) :
    majority_vote_correction s = .ok (claimC10 s) ∧
    (∀ p, p < 3 → ∀ q, q < 3 → s[p]? ≠ some (claimMaj s) →
      s[q]? ≠ some (claimMaj s) → p = q) := by
  obtain ⟨a, b, c, rfl⟩ := list_len3 s h3
  simp only [isBinaryString, List.all_cons, List.all_nil, Bool.and_true,
    Bool.and_eq_true] at hb
  obtain ⟨ha, hbb, hcc⟩ := hb
  rcases binChar a ha with rfl | rfl <;> rcases binChar b hbb with rfl | rfl <;>
    rcases binChar c hcc with rfl | rfl <;> exact ⟨rfl, by decide⟩

/-- Witness for C10 at the concrete input "010". -/
theorem majority_vote_correction_claim_w :
    majority_vote_correction ['0', '1', '0'] = .ok (claimC10 ['0', '1', '0']) ∧
    (∀ p, p < 3 → ∀ q, q < 3 →
      (['0', '1', '0'] : List Char)[p]? ≠ some (claimMaj ['0', '1', '0']) →
      (['0', '1', '0'] : List Char)[q]? ≠ some (claimMaj ['0', '1', '0']) →
      p = q) :=
  majority_vote_correction_claim ['0', '1', '0'] (by rfl) (by rfl)

/-- Classical state of the three qubits (all circuits in the repository
keep computational basis states when the initial state is '0' or '1'). -/
structure QState where
  q0 : Bool
  q1 : Bool
  q2 : Bool
deriving DecidableEq, Repr

/-- Gates appearing in the repository's circuits: X, CNOT, barrier and
the terminal measurement of all three qubits. -/
inductive Gate where
  | x (q : Fin 3)
  | cx (ctl tgt : Fin 3)
  | barrier
  | measure
deriving DecidableEq, Repr

/-- A circuit is the ordered list of appended gates. -/
abbrev Circuit := List Gate

/-- Value of a qubit in a classical state. -/
def getQubit (s : QState) (i : Fin 3) : Bool :=
  match i.val with
  | 0 => s.q0
  | 1 => s.q1
  | _ => s.q2

/-- Flip one qubit of a classical state. -/
def flipQubit (s : QState) (i : Fin 3) : QState :=
  match i.val with
  | 0 => { s with q0 := !s.q0 }
  | 1 => { s with q1 := !s.q1 }
  | _ => { s with q2 := !s.q2 }

/-- Action of a gate on a classical basis state: X flips its qubit,
CNOT flips the target when the control is 1, barriers do nothing, and
measuring a basis state leaves it unchanged. -/
def applyGate (s : QState) : Gate → QState
  | .x q => flipQubit s q
  | .cx ctl tgt => if getQubit s ctl then flipQubit s tgt else s
  | .barrier => s
  | .measure => s

/-- All qubits start in state 0. -/
def initState : QState := ⟨false, false, false⟩

/-- Deterministic execution of a circuit from the all-zero state. -/
def runCircuit (qc : Circuit) : QState := qc.foldl applyGate initState

/-- A measured classical bit as a character. -/
def bitChar (b : Bool) : Char := if b then '1' else '0'

/-- Measurement key of `measure([0,1,2], [0,1,2])` in the simulator's
count dictionaries: classical bit 2 first, classical bit 0 last. -/
def measuredKey (qc : Circuit) : List Char :=
  [bitChar (runCircuit qc).q2, bitChar (runCircuit qc).q1,
   bitChar (runCircuit qc).q0]

/-- Count dictionary of running the (noiseless, deterministic) circuit
for a number of shots: every shot lands on the deterministic key. -/
def runShots (qc : Circuit) (shots : Nat) : List Char → Nat :=
  fun outcome => if outcome = measuredKey qc then shots else 0

/-- Success rate reported by the Flask routes: percentage of shots
whose outcome equals the expected state. -/
def success_rate (counts : List Char → Nat) (expected : List Char)
    (shots : Nat) : ℚ :=
  ((counts expected : ℚ) / (shots : ℚ)) * 100

/-- The `corrected` flag of the Flask `/pipeline` route:
`success_rate >= 99.0`. -/
def corrected_flag (rate : ℚ) : Bool := decide (99 ≤ rate)

/-- Circuit of the Flask `/encode` route (`flask_backend.py` lines
160-192): optional X on qubit 0, the two encoding CNOTs, and the
measurement. -/
def encode_circuit (initial_state : String) : Circuit :=
  (if initial_state = "1" then [Gate.x 0] else []) ++
    [Gate.cx 0 1, Gate.cx 0 2, Gate.measure]

/-- Translation of `create_error_correction_circuit_v2` from
`automatic_error_correction.py` (lines 95-146): returns the pair
(circuit with error only, circuit with error and correction). -/
def create_error_correction_circuit_v2 (initial_state : String)
    (error_qubit : Option (Fin 3)) : Circuit × Circuit :=
  let qc_error :=
    (if initial_state = "1" then [Gate.x 0] else []) ++ [Gate.barrier] ++
    [Gate.cx 0 1, Gate.cx 0 2, Gate.barrier] ++
    (match error_qubit with
     | some e => [Gate.x e, Gate.barrier]
     | none => []) ++ [Gate.measure]
  let qc_corrected :=
    (if initial_state = "1" then [Gate.x 0] else []) ++ [Gate.barrier] ++
    [Gate.cx 0 1, Gate.cx 0 2, Gate.barrier] ++
    (match error_qubit with
     | some e => [Gate.x e, Gate.barrier, Gate.x e, Gate.barrier]
     | none => []) ++ [Gate.measure]
  (qc_error, qc_corrected)

/-- Circuit of the Flask `/correct` route (`flask_backend.py` lines
277-323): encode, error, correction at the same qubit, measurement. -/
def correct_circuit (initial_state : String) (error_qubit : Fin 3) : Circuit :=
  (if initial_state = "1" then [Gate.x 0] else []) ++
  [Gate.cx 0 1, Gate.cx 0 2, Gate.barrier,
   Gate.x error_qubit, Gate.barrier, Gate.x error_qubit, Gate.barrier,
   Gate.measure]

/-- Circuit of the Flask `/pipeline` route (`flask_backend.py` lines
326-394): encode, error, correction at the same qubit, then the two
decode CNOTs (control 0 to target 2, then control 0 to target 1), then
measurement. -/
def pipeline_circuit (initial_state : String) (error_qubit : Fin 3) : Circuit :=
  (if initial_state = "1" then [Gate.x 0] else []) ++
  [Gate.cx 0 1, Gate.cx 0 2,
   Gate.x error_qubit, Gate.x error_qubit,
   Gate.cx 0 2, Gate.cx 0 1, Gate.measure]

/-- C4: with no error injected, the encode-and-measure circuits give
'000' on every shot for initial value '0' and '111' on every shot for
initial value '1' (Flask `/encode` circuit and both circuits of
`create_error_correction_circuit_v2`). -/
theorem encode_roundtrip (shots : Nat) :
    runShots (encode_circuit "0") shots ['0', '0', '0'] = shots ∧
    runShots (encode_circuit "1") shots ['1', '1', '1'] = shots ∧
    runShots (create_error_correction_circuit_v2 "0" none).1 shots
      ['0', '0', '0'] = shots ∧
    runShots (create_error_correction_circuit_v2 "0" none).2 shots
      ['0', '0', '0'] = shots ∧
    runShots (create_error_correction_circuit_v2 "1" none).1 shots
      ['1', '1', '1'] = shots ∧
    runShots (create_error_correction_circuit_v2 "1" none).2 shots
      ['1', '1', '1'] = shots :=
  ⟨if_pos rfl, if_pos rfl, if_pos rfl, if_pos rfl, if_pos rfl, if_pos rfl⟩

/-- C5: error and correction at the same qubit cancel: the corrected
circuit of `create_error_correction_circuit_v2` has the same outcome
distribution as the circuit with no error, for every initial state
string and every error qubit; concretely, initial '1' with error and
correction on qubit 2 measures '111' on every shot, a 100% success
rate for any positive shot count (also through the Flask `/correct`
circuit). -/
theorem correction_idempotent (initial_state : String) (e : Fin 3)
    (shots : Nat) (hs : 0 < shots) :
    runShots (create_error_correction_circuit_v2 initial_state (some e)).2 shots =
      runShots (create_error_correction_circuit_v2 initial_state none).2 shots ∧
    runShots (create_error_correction_circuit_v2 "1" (some 2)).2 shots
      ['1', '1', '1'] = shots ∧
    runShots (correct_circuit "1" 2) shots ['1', '1', '1'] = shots ∧
    success_rate (runShots (create_error_correction_circuit_v2 "1" (some 2)).2 shots)
      ['1', '1', '1'] shots = 100 := by
  refine ⟨?_, if_pos rfl, if_pos rfl, ?_⟩
  · by_cases hinit : initial_state = "1" <;> fin_cases e <;>
      simp only [create_error_correction_circuit_v2, hinit] <;> rfl
  · have hkey : runShots (create_error_correction_circuit_v2 "1" (some 2)).2 shots
        ['1', '1', '1'] = shots := if_pos rfl
    simp only [success_rate, hkey]
    rw [div_self (Nat.cast_ne_zero.mpr hs.ne'), one_mul]

/-- Witness for C5 at initial state '1', error qubit 2, one shot. -/
theorem correction_idempotent_w :
    runShots (create_error_correction_circuit_v2 "1" (some 2)).2 1 =
      runShots (create_error_correction_circuit_v2 "1" none).2 1 ∧
    runShots (create_error_correction_circuit_v2 "1" (some 2)).2 1
      ['1', '1', '1'] = 1 ∧
    runShots (correct_circuit "1" 2) 1 ['1', '1', '1'] = 1 ∧
    success_rate (runShots (create_error_correction_circuit_v2 "1" (some 2)).2 1)
      ['1', '1', '1'] 1 = 100 :=
  correction_idempotent "1" 2 1 (by decide)

/-- Conversion of a validated error-qubit index into a qubit. -/
def int_to_qubit (i : Int) : Fin 3 :=
  if i = 1 then 1 else if i = 2 then 2 else 0

/-- Translation of `introduce_bit_flip_error` from
`bit_flip_error_simulation.py` (lines 33-56): validates the index
against {0,1,2}, raising `ValueError` otherwise, then appends a
barrier, the X gate and another barrier. -/
def introduce_bit_flip_error (qc : Circuit) (qubit_index : Int) :
    Except Err Circuit :=
  if qubit_index ∉ ([0, 1, 2] : List Int) then
    .error (.valueError "Qubit index must be 0, 1, or 2")
  else
    .ok (qc ++ [Gate.barrier, Gate.x (int_to_qubit qubit_index), Gate.barrier])

/-- C8: for every error-qubit index outside {0,1,2} (for example 3),
`introduce_bit_flip_error` fails with the invalid-input `ValueError`
at circuit-construction time, before any simulation. -/
theorem introduce_error_invalid_index (qc : Circuit) (qubit_index : Int)
    (h : qubit_index ∉ ([0, 1, 2] : List Int)) :
    introduce_bit_flip_error qc qubit_index =
      .error (.valueError "Qubit index must be 0, 1, or 2") ∧
    introduce_bit_flip_error [] 3 =
      .error (.valueError "Qubit index must be 0, 1, or 2") :=
  ⟨by simp only [introduce_bit_flip_error, if_pos h], by rfl⟩

/-- Witness for C8 at the concrete invalid index 3. -/
theorem introduce_error_invalid_index_w :
    introduce_bit_flip_error [] 3 =
      .error (.valueError "Qubit index must be 0, 1, or 2") :=
  (introduce_error_invalid_index [] 3 (by decide)).1

/-- C9: the Flask `/pipeline` circuit ends with the two decode CNOTs
(control 0 to target 2, then control 0 to target 1) before
measurement; hence for initial state '1' and any error qubit every
shot measures '001', the success rate against the expected '111' is 0
and the corrected flag is false, while for initial state '0' every
shot measures '000' and the success rate is 100. -/
theorem pipeline_decode_behavior (e : Fin 3) (shots : Nat) (hs : 0 < shots) :
    pipeline_circuit "1" e =
      [Gate.x 0, Gate.cx 0 1, Gate.cx 0 2, Gate.x e, Gate.x e,
       Gate.cx 0 2, Gate.cx 0 1, Gate.measure] ∧
    runShots (pipeline_circuit "1" e) shots ['0', '0', '1'] = shots ∧
    success_rate (runShots (pipeline_circuit "1" e) shots)
      ['1', '1', '1'] shots = 0 ∧
    corrected_flag (success_rate (runShots (pipeline_circuit "1" e) shots)
      ['1', '1', '1'] shots) = false ∧
    runShots (pipeline_circuit "0" e) shots ['0', '0', '0'] = shots ∧
    success_rate (runShots (pipeline_circuit "0" e) shots)
      ['0', '0', '0'] shots = 100 := by
  have hkey1 : measuredKey (pipeline_circuit "1" e) = ['0', '0', '1'] := by
    fin_cases e <;> rfl
  have hkey0 : measuredKey (pipeline_circuit "0" e) = ['0', '0', '0'] := by
    fin_cases e <;> rfl
  have hc111 : runShots (pipeline_circuit "1" e) shots ['1', '1', '1'] = 0 := by
    simp [runShots, hkey1]
  have hrate0 : success_rate (runShots (pipeline_circuit "1" e) shots)
      ['1', '1', '1'] shots = 0 := by
    simp [success_rate, hc111]
  have hc000 : runShots (pipeline_circuit "0" e) shots ['0', '0', '0'] = shots := by
    simp [runShots, hkey0]
  refine ⟨rfl, ?_, hrate0, ?_, hc000, ?_⟩
  · simp [runShots, hkey1]
  · rw [hrate0]
    rfl
  · simp only [success_rate, hc000]
    rw [div_self (Nat.cast_ne_zero.mpr hs.ne'), one_mul]

/-- Witness for C9 at error qubit 1 and 1000 shots. -/
theorem pipeline_decode_behavior_w :
    pipeline_circuit "1" 1 =
      [Gate.x 0, Gate.cx 0 1, Gate.cx 0 2, Gate.x 1, Gate.x 1,
       Gate.cx 0 2, Gate.cx 0 1, Gate.measure] ∧
    runShots (pipeline_circuit "1" 1) 1000 ['0', '0', '1'] = 1000 ∧
    success_rate (runShots (pipeline_circuit "1" 1) 1000)
      ['1', '1', '1'] 1000 = 0 ∧
    corrected_flag (success_rate (runShots (pipeline_circuit "1" 1) 1000)
      ['1', '1', '1'] 1000) = false ∧
    runShots (pipeline_circuit "0" 1) 1000 ['0', '0', '0'] = 1000 ∧
    success_rate (runShots (pipeline_circuit "0" 1) 1000)
      ['0', '0', '0'] 1000 = 100 :=
  pipeline_decode_behavior 1 1000 (by decide)
